import Mathlib

/-!
Shallow embedding of `src/ctap2/commands/make_credentials.rs` from
obelisk/authenticator-rs, together with theorems settling the frozen
claims about it.  Byte values are modelled as `Nat`, byte buffers as
`List Nat`, Rust `Option`/`Result` as `Option`/`Except`.
-/

namespace MakeCred

/-- Modelled from the spec: protocol-version identifier exposed by the
device capability snapshot.  `U2F_V2` is the legacy revision, `FIDO_2_0`
the older modern revision, the rest are newer modern revisions. -/
inductive AuthenticatorVersion
  | U2F_V2
  | FIDO_2_0
  | FIDO_2_1_PRE
  | FIDO_2_1
deriving DecidableEq, Repr

/-- Modelled from the spec: the boolean/optional-boolean feature flags of
the device capability snapshot (`AuthenticatorOptions` of `get_info.rs`,
absent from `src/`).  The `Option Bool` fields mirror the tri-state
capability flags the source compares against `Some(true)`. -/
structure AuthenticatorOptions where
  platform_device : Bool
  resident_key : Bool
  user_verification : Option Bool
  client_pin : Option Bool
  make_cred_uv_not_rqd : Option Bool
  always_uv : Option Bool
deriving DecidableEq, Repr

/-- Modelled from the spec: the read-only device capability snapshot
(`AuthenticatorInfo` of `get_info.rs`, absent from `src/`); the
`max_supported_version()` method is modelled as a field. -/
structure AuthenticatorInfo where
  options : AuthenticatorOptions
  maxSupportedVersion : AuthenticatorVersion
deriving DecidableEq, Repr

/-- Modelled from the spec: the relying party's user-verification
requirement tiers; `Discouraged` is the weakest tier. -/
inductive UserVerificationRequirement
  | Required
  | Preferred
  | Discouraged
deriving DecidableEq, Repr

/-- Modelled from the spec: relying-party descriptor (a domain-like id
plus an optional display name). -/
structure RelyingParty where
  id : String
  name : Option String
deriving DecidableEq, Repr

/-- Modelled from the spec: the user entity attached to a creation
request. -/
structure PublicKeyCredentialUserEntity where
  id : List Nat
  name : Option String
  display_name : Option String
deriving DecidableEq, Repr

/-- Modelled from the spec: credential-protection policy extension input
(opaque to the claims; only its presence matters). -/
inductive CredentialProtectionPolicy
  | userVerificationOptional
  | userVerificationOptionalWithCredentialIDList
  | userVerificationRequired
deriving DecidableEq, Repr

/-- `MakeCredentialsOptions` of the source: the `rk`/`uv` creation
options. -/
structure MakeCredentialsOptions where
  resident_key : Option Bool
  user_verification : Option Bool
deriving DecidableEq, Repr

/-- `MakeCredentialsOptions::has_some` of the source. -/
def MakeCredentialsOptions.has_some (o : MakeCredentialsOptions) : Bool :=
  o.resident_key.isSome || o.user_verification.isSome

/-- `MakeCredentialsExtensions` of the source.  `cred_props` is marked
`skip_serializing` in the source and does not count as wire content. -/
structure MakeCredentialsExtensions where
  cred_props : Option Bool
  cred_protect : Option CredentialProtectionPolicy
  hmac_secret : Option Bool
  min_pin_length : Option Bool
deriving DecidableEq, Repr

/-- `MakeCredentialsExtensions::has_content` of the source. -/
def MakeCredentialsExtensions.has_content (e : MakeCredentialsExtensions) : Bool :=
  e.cred_protect.isSome || e.hmac_secret.isSome || e.min_pin_length.isSome

/-- Modelled from the spec: the derived per-request authentication tag
(`PinUvAuthParam`, absent from `src/`); it carries its pin-protocol
version id, which the serializer writes as map entry 9. -/
structure PinUvAuthParam where
  pin_auth : List Nat
  pin_protocol_id : Nat
deriving DecidableEq, Repr

/-- `MakeCredentials` of the source: the credential-creation request. -/
structure MakeCredentials where
  client_data_hash : List Nat
  rp : RelyingParty
  user : Option PublicKeyCredentialUserEntity
  pub_cred_params : List Nat
  exclude_list : List Nat
  extensions : MakeCredentialsExtensions
  options : MakeCredentialsOptions
  pin_uv_auth_param : Option PinUvAuthParam
  enterprise_attestation : Option Nat
deriving DecidableEq, Repr

/-- `MakeCredials::can_skip_user_verification` of the source
(lines 382-408), translated clause by clause. -/
def can_skip_user_verification (self : MakeCredentials) (info : AuthenticatorInfo)
    (uv_req : UserVerificationRequirement) : Bool :=
  let supports_uv := decide (info.options.user_verification = some true)
  let pin_configured := decide (info.options.client_pin = some true)
  let device_protected := supports_uv || pin_configured
  let make_cred_uv_not_required :=
    decide (info.options.make_cred_uv_not_rqd = some true)
      && !(decide (self.options.resident_key = some true))
      && decide (uv_req = UserVerificationRequirement.Discouraged)
  let always_uv := decide (info.options.always_uv = some true)
  !always_uv && (!device_protected || make_cred_uv_not_required)

/-- The skip-UV decision table in the words of the claim (spec 4.4), to
be compared against the source translation. -/
def can_skip_uv_spec (self : MakeCredentials) (info : AuthenticatorInfo)
    (uv_req : UserVerificationRequirement) : Prop :=
  info.options.always_uv ≠ some true ∧
    ((info.options.user_verification ≠ some true ∧ info.options.client_pin ≠ some true) ∨
      (info.options.make_cred_uv_not_rqd = some true ∧
        self.options.resident_key ≠ some true ∧
        uv_req = UserVerificationRequirement.Discouraged))

/-- C1: `can_skip_user_verification` returns true iff the capability does
not declare "always require UV", and either the device is not protected
(it neither supports user verification nor has a PIN configured), or the
device declares "UV not required for non-resident credentials", the
request's resident-key option is not explicitly true, and the relying
party's UV requirement is Discouraged. -/
theorem c1_can_skip_user_verification_iff (self : MakeCredentials)
    (info : AuthenticatorInfo) (uv_req : UserVerificationRequirement) :
    can_skip_user_verification self info uv_req = true ↔
      can_skip_uv_spec self info uv_req := by
  simp only [can_skip_user_verification, can_skip_uv_spec, Bool.and_eq_true,
    Bool.or_eq_true, Bool.or_eq_false_iff, Bool.not_eq_true', Bool.not_eq_true,
    decide_eq_true_eq, decide_eq_false_iff_not]
  tauto

/-- Modelled from the spec: COSE algorithm identifiers (only the two the
source file mentions are needed). -/
inductive COSEAlgorithm
  | ES256
  | RS256
deriving DecidableEq, Repr

/-- Modelled from the spec: elliptic curves; the legacy path only
supports SECP256R1. -/
inductive Curve
  | SECP256R1
deriving DecidableEq, Repr

/-- Modelled from the spec: canonical EC2 public-key representation
(curve plus coordinate bytes). -/
structure COSEEC2Key where
  curve : Curve
  x : List Nat
  y : List Nat
deriving DecidableEq, Repr

/-- Modelled from the spec: the key-type part of a COSE key; the legacy
parser only builds the EC2 variant. -/
inductive COSEKeyType
  | EC2 (key : COSEEC2Key)
deriving DecidableEq, Repr

/-- Modelled from the spec: a COSE public key tagging the algorithm
alongside the key data. -/
structure COSEKey where
  alg : COSEAlgorithm
  key : COSEKeyType
deriving DecidableEq, Repr

/-- Modelled from the spec: the authenticator id; `zeroAAGuid` is its
zero default (legacy protocol has none). -/
def zeroAAGuid : List Nat := List.replicate 16 0

/-- Modelled from the spec: attested-credential-data attached to
authenticator data. -/
structure AttestedCredentialData where
  aaguid : List Nat
  credential_id : List Nat
  credential_public_key : COSEKey
deriving DecidableEq, Repr

/-- Modelled from the spec: the hmac-secret extension output carried in
authenticator data, either the "confirmed" flag or encrypted output. -/
inductive HmacSecretResponse
  | confirmed (flag : Bool)
  | secret (bytes : List Nat)
deriving DecidableEq, Repr

/-- Modelled from the spec: extension outputs carried inside
authenticator data. -/
structure AuthDataExtensions where
  hmac_secret : Option HmacSecretResponse
deriving DecidableEq, Repr

instance : Inhabited AuthDataExtensions := ⟨⟨none⟩⟩

/-- `AuthenticatorDataFlags::USER_PRESENT` (bit 0), pinned by the
source comment at lines 82-86. -/
def USER_PRESENT : Nat := 0x01

/-- `AuthenticatorDataFlags::ATTESTED` (bit 6), pinned by the source
comment at lines 82-86. -/
def ATTESTED : Nat := 0x40

/-- Modelled from the spec: parsed authenticator data (the raw byte span
is retained for signature verification). -/
structure AuthenticatorData where
  rp_id_hash : List Nat
  flags : Nat
  counter : Nat
  credential_data : Option AttestedCredentialData
  extensions : AuthDataExtensions
  raw_data : List Nat
deriving DecidableEq, Repr

/-- Modelled from the spec: packed attestation statement (opaque to the
claims). -/
structure AttestationStatementPacked where
  sig : List Nat
deriving DecidableEq, Repr

/-- Modelled from the spec: the legacy certificate-plus-signature
attestation statement (`AttestationStatementFidoU2F::new`). -/
structure AttestationStatementFidoU2F where
  attestation_cert : List Nat
  signature : List Nat
deriving DecidableEq, Repr

/-- Modelled from the spec: the closed attestation-statement variant
set. -/
inductive AttestationStatement
  | None
  | Packed (p : AttestationStatementPacked)
  | FidoU2F (f : AttestationStatementFidoU2F)
deriving DecidableEq, Repr

/-- Modelled from the spec: the attestation object bundling
authenticator data and attestation statement. -/
structure AttestationObject where
  auth_data : AuthenticatorData
  att_stmt : AttestationStatement
deriving DecidableEq, Repr

/-- Modelled from the spec: attachment class resolved post-hoc from
device capability. -/
inductive AuthenticatorAttachment
  | Platform
  | CrossPlatform
  | Unknown
deriving DecidableEq, Repr

/-- Modelled from the spec: the credProps extension output (`rk`
defaults to false). -/
structure CredentialPropertiesOutput where
  rk : Bool
deriving DecidableEq, Repr

instance : Inhabited CredentialPropertiesOutput := ⟨⟨false⟩⟩

/-- Modelled from the spec: the caller-visible reconciled extension
outputs. -/
structure AuthenticationExtensionsClientOutputs where
  cred_props : Option CredentialPropertiesOutput
  hmac_create_secret : Option Bool
deriving DecidableEq, Repr

instance : Inhabited AuthenticationExtensionsClientOutputs := ⟨⟨none, none⟩⟩

/-- `MakeCredentialsResult` of the source. -/
structure MakeCredentialsResult where
  att_obj : AttestationObject
  attachment : AuthenticatorAttachment
  extensions : AuthenticationExtensionsClientOutputs
deriving DecidableEq, Repr

/-- The attachment classification of `finalize_result` (source lines
314-318). -/
def attachmentOf : Option AuthenticatorInfo → AuthenticatorAttachment
  | some info =>
      if info.options.platform_device then AuthenticatorAttachment.Platform
      else AuthenticatorAttachment.CrossPlatform
  | none => AuthenticatorAttachment.Unknown

/-- `requested_rk` of `finalize_result` (source line 329):
`self.options.resident_key.unwrap_or(false)`. -/
def requestedRk (self : MakeCredentials) : Bool :=
  self.options.resident_key.getD false

/-- `rk_uncertain` of `finalize_result` (source lines 333-335), with the
device info threaded explicitly. -/
def rkUncertainCode (self : MakeCredentials) (maybe_info : Option AuthenticatorInfo) : Bool :=
  decide ((maybe_info.map AuthenticatorInfo.maxSupportedVersion).getD
      AuthenticatorVersion.U2F_V2 = AuthenticatorVersion.FIDO_2_0)
    && (maybe_info.map (fun info => info.options.resident_key)).getD false
    && !(requestedRk self)

/-- `MakeCredentials::finalize_result` of the source (lines 311-354),
with `dev.get_authenticator_info()` passed in as `maybe_info` and the
in-place mutation of `result` made explicit state passing. -/
def finalize_result (self : MakeCredentials) (maybe_info : Option AuthenticatorInfo)
    (result : MakeCredentialsResult) : MakeCredentialsResult :=
  let r1 := { result with attachment := attachmentOf maybe_info }
  let r2 :=
    if decide (self.extensions.cred_props = some true) && !(rkUncertainCode self maybe_info) then
      let updated := { (r1.extensions.cred_props.getD default) with rk := requestedRk self }
      { r1 with extensions := { r1.extensions with cred_props := some updated } }
    else r1
  if decide (self.extensions.hmac_secret = some true) then
    match r2.att_obj.auth_data.extensions.hmac_secret with
    | some (HmacSecretResponse.confirmed flag) =>
        { r2 with extensions := { r2.extensions with hmac_create_secret := some flag } }
    | _ => r2
  else r2

/-- The resident-key uncertainty condition in the words of the claim:
the device's maximum supported protocol version is the older modern
revision, the device declares resident-key support, and the request did
not explicitly ask for a resident key. -/
def rk_uncertain_spec (self : MakeCredentials) (maybe_info : Option AuthenticatorInfo) : Prop :=
  (maybe_info.map AuthenticatorInfo.maxSupportedVersion).getD
      AuthenticatorVersion.U2F_V2 = AuthenticatorVersion.FIDO_2_0
    ∧ (maybe_info.map (fun info => info.options.resident_key)).getD false = true
    ∧ self.options.resident_key ≠ some true

theorem rkUncertainCode_eq_true_iff (self : MakeCredentials)
    (maybe_info : Option AuthenticatorInfo) :
    rkUncertainCode self maybe_info = true ↔ rk_uncertain_spec self maybe_info := by
  cases hrk : self.options.resident_key with
  | none =>
      simp [rkUncertainCode, rk_uncertain_spec, requestedRk, hrk, Bool.and_eq_true,
        decide_eq_true_eq]
  | some b =>
      cases b <;>
        simp [rkUncertainCode, rk_uncertain_spec, requestedRk, hrk, Bool.and_eq_true,
          decide_eq_true_eq]

/-- C2: with the credProps extension requested and a freshly decoded
result (whose credProps output is still absent), `finalize_result`
leaves the resident-key extension output absent exactly when the device's
maximum supported protocol version is FIDO_2_0, the device declares
resident-key support, and the request did not explicitly ask for a
resident key; in every other case it sets the output to the requested
resident-key value. -/
theorem c2_finalize_credprops (self : MakeCredentials)
    (maybe_info : Option AuthenticatorInfo) (result : MakeCredentialsResult)
    (hreq : self.extensions.cred_props = some true)
    (hfresh : result.extensions.cred_props = none) :
    ((finalize_result self maybe_info result).extensions.cred_props = none ↔
        rk_uncertain_spec self maybe_info) ∧
      (¬ rk_uncertain_spec self maybe_info →
        (finalize_result self maybe_info result).extensions.cred_props =
          some ⟨requestedRk self⟩) := by
  have hcode := rkUncertainCode_eq_true_iff self maybe_info
  cases hrk : rkUncertainCode self maybe_info with
  | false =>
      have hspec : ¬ rk_uncertain_spec self maybe_info := by
        rw [← hcode, hrk]; simp
      cases hh : self.extensions.hmac_secret with
      | none =>
          constructor
          · simp [finalize_result, hreq, hrk, hh, hfresh, hspec]
          · intro _; simp [finalize_result, hreq, hrk, hh, hfresh]
      | some b =>
          cases b with
          | false =>
              constructor
              · simp [finalize_result, hreq, hrk, hh, hfresh, hspec]
              · intro _; simp [finalize_result, hreq, hrk, hh, hfresh]
          | true =>
              cases hm : result.att_obj.auth_data.extensions.hmac_secret with
              | none =>
                  constructor
                  · simp [finalize_result, hreq, hrk, hh, hm, hfresh, hspec]
                  · intro _; simp [finalize_result, hreq, hrk, hh, hm, hfresh]
              | some resp =>
                  cases resp <;>
                    exact ⟨by simp [finalize_result, hreq, hrk, hh, hm, hfresh, hspec],
                      fun _ => by simp [finalize_result, hreq, hrk, hh, hm, hfresh]⟩
  | true =>
      have hspec : rk_uncertain_spec self maybe_info := hcode.mp hrk
      cases hh : self.extensions.hmac_secret with
      | none =>
          constructor
          · simp [finalize_result, hreq, hrk, hh, hfresh, hspec]
          · intro h; exact absurd hspec h
      | some b =>
          cases b with
          | false =>
              constructor
              · simp [finalize_result, hreq, hrk, hh, hfresh, hspec]
              · intro h; exact absurd hspec h
          | true =>
              cases hm : result.att_obj.auth_data.extensions.hmac_secret with
              | none =>
                  constructor
                  · simp [finalize_result, hreq, hrk, hh, hm, hfresh, hspec]
                  · intro h; exact absurd hspec h
              | some resp =>
                  cases resp <;>
                    exact ⟨by simp [finalize_result, hreq, hrk, hh, hm, hfresh, hspec],
                      fun h => absurd hspec h⟩

/-- A concrete user entity used by the concrete evaluation lemmas. -/
def sampleUser : PublicKeyCredentialUserEntity :=
  ⟨[0], some ("johnpsmith"), none⟩

/-- A concrete request: credProps and hmac-secret requested, resident key
explicitly requested. -/
def sampleReq : MakeCredentials where
  client_data_hash := [1, 2, 3]
  rp := ⟨"example.com", none⟩
  user := some sampleUser
  pub_cred_params := [7]
  exclude_list := []
  extensions := ⟨some true, none, some true, none⟩
  options := ⟨some true, none⟩
  pin_uv_auth_param := none
  enterprise_attestation := none

/-- A concrete freshly decoded authenticator-data value carrying a
confirmed hmac-secret flag. -/
def sampleAuthData : AuthenticatorData where
  rp_id_hash := []
  flags := 0x41
  counter := 0
  credential_data := none
  extensions := ⟨some (HmacSecretResponse.confirmed true)⟩
  raw_data := []

/-- A concrete freshly decoded result (extension outputs still absent,
as both decoders produce them). -/
def sampleRes : MakeCredentialsResult where
  att_obj := ⟨sampleAuthData, AttestationStatement.None⟩
  attachment := AuthenticatorAttachment.Unknown
  extensions := ⟨none, none⟩

/-- C2 witness: the hypotheses of `c2_finalize_credprops` hold at a
concrete request, device and result, and the theorem applies there. -/
theorem c2_finalize_credprops_witness :
    sampleReq.extensions.cred_props = some true ∧
      sampleRes.extensions.cred_props = none ∧
      (((finalize_result sampleReq none sampleRes).extensions.cred_props = none ↔
          rk_uncertain_spec sampleReq none) ∧
        (¬ rk_uncertain_spec sampleReq none →
          (finalize_result sampleReq none sampleRes).extensions.cred_props =
            some ⟨requestedRk sampleReq⟩)) :=
  ⟨rfl, rfl, c2_finalize_credprops sampleReq none sampleRes rfl rfl⟩

/-- C10: on a request/device pair with no ambiguous resident-key case,
`finalize_result` is idempotent: applying it twice yields the same
attachment and extension outputs as applying it once. -/
theorem c10_finalize_result_idempotent (self : MakeCredentials)
    (maybe_info : Option AuthenticatorInfo) (result : MakeCredentialsResult)
    (_h : ¬ rk_uncertain_spec self maybe_info) :
    (finalize_result self maybe_info
        (finalize_result self maybe_info result)).attachment =
      (finalize_result self maybe_info result).attachment ∧
    (finalize_result self maybe_info
        (finalize_result self maybe_info result)).extensions =
      (finalize_result self maybe_info result).extensions := by
  cases hc : (decide (self.extensions.cred_props = some true)
      && !(rkUncertainCode self maybe_info)) with
  | false =>
      cases hh : decide (self.extensions.hmac_secret = some true) with
      | false => simp [finalize_result, hc, hh]
      | true =>
          cases hm : result.att_obj.auth_data.extensions.hmac_secret with
          | none => simp [finalize_result, hc, hh, hm]
          | some resp => cases resp <;> simp [finalize_result, hc, hh, hm]
  | true =>
      cases hh : decide (self.extensions.hmac_secret = some true) with
      | false => simp [finalize_result, hc, hh]
      | true =>
          cases hm : result.att_obj.auth_data.extensions.hmac_secret with
          | none => simp [finalize_result, hc, hh, hm]
          | some resp => cases resp <;> simp [finalize_result, hc, hh, hm]

/-- C10 witness: the no-ambiguity hypothesis holds at a concrete
request/device/result triple and the idempotence theorem applies
there. -/
theorem c10_finalize_result_idempotent_witness :
    ¬ rk_uncertain_spec sampleReq none ∧
      ((finalize_result sampleReq none
          (finalize_result sampleReq none sampleRes)).attachment =
        (finalize_result sampleReq none sampleRes).attachment ∧
      (finalize_result sampleReq none
          (finalize_result sampleReq none sampleRes)).extensions =
        (finalize_result sampleReq none sampleRes).extensions) :=
  ⟨by simp [rk_uncertain_spec], c10_finalize_result_idempotent sampleReq none sampleRes
    (by simp [rk_uncertain_spec])⟩

/-- One value slot of the modern-format request map, at the granularity
the serializer claims need.  `nullVal` is the CBOR null that serde emits
for a `None` field serialized unconditionally. -/
inductive SerEntryVal
  | clientDataHash (h : List Nat)
  | rpEntry (r : RelyingParty)
  | nullVal
  | userEntry (u : PublicKeyCredentialUserEntity)
  | algs (l : List Nat)
  | excludeList (l : List Nat)
  | extEntry (e : MakeCredentialsExtensions)
  | optionsEntry (o : MakeCredentialsOptions)
  | pinParam (p : PinUvAuthParam)
  | pinProtocolId (n : Nat)
  | enterpriseAtt (n : Nat)
deriving DecidableEq, Repr

/-- The `map_len` computation of `impl Serialize for MakeCredentials`
(source lines 423-438): the entry count the serializer declares before
writing. -/
def mapLen (self : MakeCredentials) : Nat :=
  4 + (if self.exclude_list.isEmpty then 0 else 1)
    + (if self.extensions.has_content then 1 else 0)
    + (if self.options.has_some then 1 else 0)
    + (if self.pin_uv_auth_param.isSome then 2 else 0)
    + (if self.enterprise_attestation.isSome then 1 else 0)

/-- The entry-writing part of `impl Serialize for MakeCredentials`
(source lines 440-461): the keyed entries actually written, in order.
Entry 3 serializes `self.user` unconditionally, so a `None` user is
written as CBOR null by serde's `Option` serialization. -/
def serializeEntries (self : MakeCredentials) : List (Nat × SerEntryVal) :=
  [(1, SerEntryVal.clientDataHash self.client_data_hash),
   (2, SerEntryVal.rpEntry self.rp),
   (3, match self.user with
       | some u => SerEntryVal.userEntry u
       | none => SerEntryVal.nullVal),
   (4, SerEntryVal.algs self.pub_cred_params)]
  ++ (if self.exclude_list.isEmpty then []
      else [(5, SerEntryVal.excludeList self.exclude_list)])
  ++ (if self.extensions.has_content then [(6, SerEntryVal.extEntry self.extensions)]
      else [])
  ++ (if self.options.has_some then [(7, SerEntryVal.optionsEntry self.options)]
      else [])
  ++ (match self.pin_uv_auth_param with
      | some p => [(8, SerEntryVal.pinParam p), (9, SerEntryVal.pinProtocolId p.pin_protocol_id)]
      | none => [])
  ++ (match self.enterprise_attestation with
      | some n => [(10, SerEntryVal.enterpriseAtt n)]
      | none => [])

/-- C4: for every request and every combination of the five
optional-group presences, the map length the modern-format serializer
declares up front equals the number of entries it actually writes. -/
theorem c4_declared_len_eq_written (self : MakeCredentials) :
    mapLen self = (serializeEntries self).length := by
  cases hp : self.pin_uv_auth_param <;>
    cases he : self.enterprise_attestation <;>
      by_cases hx : self.exclude_list.isEmpty <;>
        by_cases hc : self.extensions.has_content <;>
          by_cases ho : self.options.has_some <;>
            simp [mapLen, serializeEntries, hp, he, hx, hc, ho]

/-- A concrete request whose user entity is absent (the legacy-mode
request shape). -/
def sampleReqNoUser : MakeCredentials where
  client_data_hash := [1, 2, 3]
  rp := ⟨"example.com", none⟩
  user := none
  pub_cred_params := [7]
  exclude_list := []
  extensions := ⟨none, none, none, none⟩
  options := ⟨none, none⟩
  pin_uv_auth_param := none
  enterprise_attestation := none

/-- C3 counterexample: at a concrete request with an absent user entity,
the modern encoding still contains key 3, and its value is CBOR null —
so the encoding does not contain only semantically present fields, and
key 3 is not omitted. -/
theorem c3_counterexample :
    sampleReqNoUser.user = none ∧
      (3, SerEntryVal.nullVal) ∈ serializeEntries sampleReqNoUser := by
  constructor
  · rfl
  · simp [serializeEntries, sampleReqNoUser, MakeCredentialsExtensions.has_content,
      MakeCredentialsOptions.has_some]

/-- C3 amended: the modern encoding carries exactly keys 1-4 plus the
presence-gated optional keys, and the only entry ever encoded as null is
key 3, exactly when the user entity is absent. -/
theorem c3_amended_keys_and_null (self : MakeCredentials) :
    ((serializeEntries self).map Prod.fst =
      [1, 2, 3, 4]
        ++ (if self.exclude_list.isEmpty then [] else [5])
        ++ (if self.extensions.has_content then [6] else [])
        ++ (if self.options.has_some then [7] else [])
        ++ (if self.pin_uv_auth_param.isSome then [8, 9] else [])
        ++ (if self.enterprise_attestation.isSome then [10] else [])) ∧
    ((serializeEntries self).all
      (fun e => decide (e.2 = SerEntryVal.nullVal) ==
        (decide (e.1 = 3) && self.user.isNone)) = true) := by
  cases hu : self.user <;>
    cases hp : self.pin_uv_auth_param <;>
      cases he : self.enterprise_attestation <;>
        by_cases hx : self.exclude_list.isEmpty <;>
          by_cases hc : self.extensions.has_content <;>
            by_cases ho : self.options.has_some <;>
              simp [serializeEntries, hu, hp, he, hx, hc, ho]

/-- Modelled from the spec: a decoded CBOR value at the granularity the
visitor claims need — a text string, a map abstracted to its entry
count, a byte string, or an integer. -/
inductive CborVal
  | text (s : String)
  | vmap (entries : Nat)
  | bytes (b : List Nat)
  | intV (n : Int)
deriving DecidableEq, Repr

/-- Modelled from the spec: the serde deserialization error kinds the
visitor produces, each naming the offending field or expected value. -/
inductive DErr
  | duplicateField (name : String)
  | missingField (name : String)
  | invalidValue (unexpected : String) (expected : String)
  | invalidType (expected : String)
  | custom (msg : String)
deriving DecidableEq, Repr

/-- Modelled from the spec: `next_value::<&str>()` — only a CBOR text
decodes as the format string. -/
def decodeText : CborVal → Except DErr String
  | CborVal.text s => Except.ok s
  | _ => Except.error (DErr.invalidType ("a string"))

/-- The sub-decoders the visitor delegates to (authenticator data,
packed statements, fido-u2f statements); their own decoding lives
outside this file's source, so the claims are proved for every possible
behavior of them. -/
structure SubDecoders where
  decAuth : CborVal → Except DErr AuthenticatorData
  decPacked : CborVal → Except DErr AttestationStatementPacked
  decU2F : CborVal → Except DErr AttestationStatementFidoU2F

/-- The visitor's loop state: the three at-most-once fields of
`MakeCredentialsResultVisitor::visit_map` (source lines 133-135). -/
structure VisitState where
  format : Option String
  auth_data : Option AuthenticatorData
  att_stmt : Option AttestationStatement
deriving DecidableEq, Repr

/-- Auxiliary pair-disciplined step, NOT the program model (`visitLoop`
below is): it processes one written key/value pair at a time.  On maps
all of whose keys lie in {1,2,3} it coincides with one iteration of the
source's visitor loop (lemma `visitLoop_eq_pairFold`); its unknown-key
branch is dead there and deliberately unused elsewhere. -/
def pairStep (d : SubDecoders) (st : VisitState) (entry : Int × CborVal) :
    Except DErr VisitState :=
  if entry.1 = 1 then
    if st.format.isSome then Except.error (DErr.duplicateField ("fmt (0x01)"))
    else
      match decodeText entry.2 with
      | Except.error e => Except.error e
      | Except.ok s => Except.ok { st with format := some s }
  else if entry.1 = 2 then
    if st.auth_data.isSome then Except.error (DErr.duplicateField ("authData (0x02)"))
    else
      match d.decAuth entry.2 with
      | Except.error e => Except.error e
      | Except.ok a => Except.ok { st with auth_data := some a }
  else if entry.1 = 3 then
    match st.format with
    | none => Except.error (DErr.missingField ("fmt (0x01)"))
    | some fmt =>
      if st.att_stmt.isSome then Except.error (DErr.duplicateField ("attStmt (0x03)"))
      else if fmt = "none" then
        match entry.2 with
        | CborVal.vmap 0 => Except.ok { st with att_stmt := some AttestationStatement.None }
        | CborVal.vmap (_ + 1) => Except.error (DErr.invalidValue ("map") ("the empty map"))
        | _ => Except.error (DErr.invalidType ("a map"))
      else if fmt = "packed" then
        match d.decPacked entry.2 with
        | Except.error e => Except.error e
        | Except.ok p => Except.ok { st with att_stmt := some (AttestationStatement.Packed p) }
      else if fmt = "fido-u2f" then
        match d.decU2F entry.2 with
        | Except.error e => Except.error e
        | Except.ok f => Except.ok { st with att_stmt := some (AttestationStatement.FidoU2F f) }
      else Except.error (DErr.custom ("unknown attestation statement format"))
  else Except.ok st

/-- Auxiliary pair-disciplined fold of `pairStep` over a written pair
list; coincides with the source's visitor loop only on maps all of
whose keys lie in {1,2,3} (lemma `visitLoop_eq_pairFold`). -/
def pairFold (d : SubDecoders) : VisitState → List (Int × CborVal) → Except DErr VisitState
  | st, [] => Except.ok st
  | st, e :: rest =>
    match pairStep d st e with
    | Except.error err => Except.error err
    | Except.ok st2 => pairFold d st2 rest

/-- The after-loop checks of `visit_map` (source lines 184-196): missing
authData or attStmt is an error, otherwise the result is assembled with
attachment `Unknown` and default extension outputs. -/
def visitFinish (st : VisitState) : Except DErr MakeCredentialsResult :=
  match st.auth_data with
  | none => Except.error (DErr.custom ("found no authData (0x02)"))
  | some ad =>
    match st.att_stmt with
    | none => Except.error (DErr.custom ("found no attStmt (0x03)"))
    | some stm =>
      Except.ok
        { att_obj := ⟨ad, stm⟩
          attachment := AuthenticatorAttachment.Unknown
          extensions := default }

/-- Modelled from the spec: `next_key::<integer>()` — the key item must
decode as an integer. -/
def decodeInt : CborVal → Except DErr Int
  | CborVal.intV n => Except.ok n
  | _ => Except.error (DErr.invalidType ("an integer"))

/-- The `while let Some(key) = map.next_key()?` loop of
`MakeCredentialsResultVisitor::visit_map` (source lines 137-182), over
serde_cbor's flat item stream of a definite-length map: `next_key`
consumes one item from the stream and one unit of the declared pair
count; each `map.next_value()?` consumes one further item.  The
`_ => continue` arm (source line 180) consumes nothing further, so the
unread value item is parsed as the next key, exactly as serde_cbor's
MapAccess (which never auto-skips an unconsumed value) behaves.  Items
left over when the declared count runs out are the enclosing
deserializer's business, not the visitor's. -/
def visitLoop (d : SubDecoders) : Nat → List CborVal → VisitState → Except DErr VisitState
  | 0, _, st => Except.ok st
  | Nat.succ n, stream, st =>
    match stream with
    | [] => Except.error (DErr.custom ("unexpected end of input"))
    | kItem :: rest =>
      match decodeInt kItem with
      | Except.error e => Except.error e
      | Except.ok key =>
        if key = 1 then
          if st.format.isSome then Except.error (DErr.duplicateField ("fmt (0x01)"))
          else
            match rest with
            | [] => Except.error (DErr.custom ("unexpected end of input"))
            | vItem :: rest2 =>
              match decodeText vItem with
              | Except.error e => Except.error e
              | Except.ok s => visitLoop d n rest2 { st with format := some s }
        else if key = 2 then
          if st.auth_data.isSome then Except.error (DErr.duplicateField ("authData (0x02)"))
          else
            match rest with
            | [] => Except.error (DErr.custom ("unexpected end of input"))
            | vItem :: rest2 =>
              match d.decAuth vItem with
              | Except.error e => Except.error e
              | Except.ok a => visitLoop d n rest2 { st with auth_data := some a }
        else if key = 3 then
          match st.format with
          | none => Except.error (DErr.missingField ("fmt (0x01)"))
          | some fmt =>
            if st.att_stmt.isSome then Except.error (DErr.duplicateField ("attStmt (0x03)"))
            else if fmt = "none" then
              match rest with
              | [] => Except.error (DErr.custom ("unexpected end of input"))
              | CborVal.vmap 0 :: rest2 =>
                  visitLoop d n rest2 { st with att_stmt := some AttestationStatement.None }
              | CborVal.vmap (_ + 1) :: _ =>
                  Except.error (DErr.invalidValue ("map") ("the empty map"))
              | _ :: _ => Except.error (DErr.invalidType ("a map"))
            else if fmt = "packed" then
              match rest with
              | [] => Except.error (DErr.custom ("unexpected end of input"))
              | vItem :: rest2 =>
                match d.decPacked vItem with
                | Except.error e => Except.error e
                | Except.ok p =>
                    visitLoop d n rest2 { st with att_stmt := some (AttestationStatement.Packed p) }
            else if fmt = "fido-u2f" then
              match rest with
              | [] => Except.error (DErr.custom ("unexpected end of input"))
              | vItem :: rest2 =>
                match d.decU2F vItem with
                | Except.error e => Except.error e
                | Except.ok f =>
                    visitLoop d n rest2 { st with att_stmt := some (AttestationStatement.FidoU2F f) }
            else Except.error (DErr.custom ("unknown attestation statement format"))
        else visitLoop d n rest st

/-- `MakeCredentialsResultVisitor::visit_map` of the source, applied to
a definite-length CBOR map of `count` declared pairs whose items form
the flat `stream`: run the loop, then the after-loop checks. -/
def visit_map (d : SubDecoders) (count : Nat) (stream : List CborVal) :
    Except DErr MakeCredentialsResult :=
  match visitLoop d count stream ⟨none, none, none⟩ with
  | Except.error e => Except.error e
  | Except.ok st => visitFinish st

/-- The wire layout of a definite-length CBOR map with integer keys:
each written pair contributes its key item then its value item. -/
def pairsToStream : List (Int × CborVal) → List CborVal
  | [] => []
  | (k, v) :: rest => CborVal.intV k :: v :: pairsToStream rest

/-- The decoder applied to a written map of key/value pairs: the
declared count is the number of pairs and the stream their flat
layout. -/
def decodePairs (d : SubDecoders) (entries : List (Int × CborVal)) :
    Except DErr MakeCredentialsResult :=
  visit_map d entries.length (pairsToStream entries)

/-- A written map none of whose keys lies outside the three the visitor
dispatches on. -/
abbrev wellKeyed (entries : List (Int × CborVal)) : Prop :=
  ∀ p ∈ entries, p.1 = 1 ∨ p.1 = 2 ∨ p.1 = 3

/-- Auxiliary pair-disciplined decoder; equals `decodePairs` on
well-keyed maps (lemma `decodePairs_eq_pairDecode`). -/
def pairDecode (d : SubDecoders) (entries : List (Int × CborVal)) :
    Except DErr MakeCredentialsResult :=
  match pairFold d ⟨none, none, none⟩ entries with
  | Except.error e => Except.error e
  | Except.ok st => visitFinish st

/-- True when a key-3 (attStmt) entry occurs before any key-1 (fmt)
entry. -/
def hasAttBeforeFmt : List (Int × CborVal) → Bool
  | [] => false
  | (k, _) :: rest => if k = 3 then true else if k = 1 then false else hasAttBeforeFmt rest

/-- The three format strings the visitor accepts. -/
def goodFmt (s : String) : Prop :=
  s = "none" ∨ s = "packed" ∨ s = "fido-u2f"

/-- The duplicate-field message the visitor uses for each of the three
tracked keys. -/
def dupFieldName : Int → String
  | 1 => "fmt (0x01)"
  | 2 => "authData (0x02)"
  | _ => "attStmt (0x03)"

/-- Whether a decode outcome is a duplicate-field error. -/
def isDuplicateFieldErr : Except DErr MakeCredentialsResult → Bool
  | Except.error (DErr.duplicateField _) => true
  | _ => false

lemma pairStep_ok_cases (d : SubDecoders) (st : VisitState) (k : Int) (v : CborVal)
    (st2 : VisitState) (h : pairStep d st (k, v) = Except.ok st2) :
    (k = 1 ∧ st.format = none ∧ ∃ s, v = CborVal.text s ∧
        st2 = { st with format := some s }) ∨
    (k = 2 ∧ st.auth_data = none ∧ ∃ a, st2 = { st with auth_data := some a }) ∨
    (k = 3 ∧ st.att_stmt = none ∧ (∃ s, st.format = some s ∧ goodFmt s) ∧
        ∃ t, st2 = { st with att_stmt := some t }) ∨
    (¬ k = 1 ∧ ¬ k = 2 ∧ ¬ k = 3 ∧ st2 = st) := by
  by_cases h1 : k = 1
  · subst h1
    left
    cases hf : st.format with
    | some s => simp [pairStep, hf] at h
    | none =>
        cases v with
        | text s =>
            simp [pairStep, decodeText, hf] at h
            exact ⟨rfl, rfl, s, rfl, h.symm⟩
        | vmap n => simp [pairStep, decodeText, hf] at h
        | bytes b => simp [pairStep, decodeText, hf] at h
        | intV n => simp [pairStep, decodeText, hf] at h
  · by_cases h2 : k = 2
    · subst h2
      right; left
      cases ha : st.auth_data with
      | some a => simp [pairStep, ha] at h
      | none =>
          cases hda : d.decAuth v with
          | error e => simp [pairStep, ha, hda] at h
          | ok a =>
              simp [pairStep, ha, hda] at h
              exact ⟨rfl, rfl, a, h.symm⟩
    · by_cases h3 : k = 3
      · subst h3
        right; right; left
        cases hf : st.format with
        | none => simp [pairStep, hf] at h
        | some fmt =>
            cases ha : st.att_stmt with
            | some t => simp [pairStep, hf, ha] at h
            | none =>
                by_cases hn : fmt = "none"
                · subst hn
                  cases v with
                  | vmap n =>
                      cases n with
                      | zero =>
                          simp [pairStep, hf, ha] at h
                          exact ⟨rfl, rfl, ⟨_, rfl, Or.inl rfl⟩, _, h.symm⟩
                      | succ m => simp [pairStep, hf, ha] at h
                  | text s => simp [pairStep, hf, ha] at h
                  | bytes b => simp [pairStep, hf, ha] at h
                  | intV n => simp [pairStep, hf, ha] at h
                · by_cases hp : fmt = "packed"
                  · subst hp
                    cases hdp : d.decPacked v with
                    | error e => simp [pairStep, hf, ha, hdp] at h
                    | ok p =>
                        simp [pairStep, hf, ha, hdp] at h
                        exact ⟨rfl, rfl, ⟨_, rfl, Or.inr (Or.inl rfl)⟩, _, h.symm⟩
                  · by_cases hu : fmt = "fido-u2f"
                    · subst hu
                      cases hdu : d.decU2F v with
                      | error e => simp [pairStep, hf, ha, hdu] at h
                      | ok f =>
                          simp [pairStep, hf, ha, hdu] at h
                          exact ⟨rfl, rfl, ⟨_, rfl, Or.inr (Or.inr rfl)⟩, _, h.symm⟩
                    · simp [pairStep, hf, ha, hn, hp, hu] at h
      · right; right; right
        simp [pairStep, h1, h2, h3] at h
        exact ⟨h1, h2, h3, h.symm⟩

lemma pairFold_append (d : SubDecoders) (a b : List (Int × CborVal)) : ∀ st,
    pairFold d st (a ++ b) =
      match pairFold d st a with
      | Except.error e => Except.error e
      | Except.ok st2 => pairFold d st2 b := by
  induction a with
  | nil => intro st; simp [pairFold]
  | cons e rest ih =>
      intro st
      simp only [List.cons_append, pairFold]
      cases pairStep d st e <;> simp [ih]

lemma pairFold_singleton (d : SubDecoders) (st : VisitState) (e : Int × CborVal) :
    pairFold d st [e] = pairStep d st e := by
  simp only [pairFold]
  cases pairStep d st e <;> rfl

lemma pairFold_append_ok (d : SubDecoders) (a b : List (Int × CborVal))
    (st stF : VisitState) (h : pairFold d st (a ++ b) = Except.ok stF) :
    ∃ stM, pairFold d st a = Except.ok stM ∧ pairFold d stM b = Except.ok stF := by
  rw [pairFold_append] at h
  cases ha : pairFold d st a with
  | error e => rw [ha] at h; exact absurd h (by simp)
  | ok stM => rw [ha] at h; exact ⟨stM, rfl, h⟩

lemma pairFold_format_some (d : SubDecoders) (l : List (Int × CborVal)) :
    ∀ st st2 s, pairFold d st l = Except.ok st2 → st.format = some s →
      st2.format = some s := by
  induction l with
  | nil => intro st st2 s h hf; simp [pairFold] at h; rw [← h]; exact hf
  | cons e rest ih =>
      intro st st2 s h hf
      obtain ⟨k, v⟩ := e
      simp only [pairFold] at h
      cases hstep : pairStep d st (k, v) with
      | error err => rw [hstep] at h; exact absurd h (by simp)
      | ok stM =>
          rw [hstep] at h
          rcases pairStep_ok_cases d st k v stM hstep with
            ⟨_, hfn, _, _, _⟩ | ⟨_, _, _, hm⟩ | ⟨_, _, _, _, hm⟩ | ⟨_, _, _, hm⟩
          · rw [hf] at hfn; exact absurd hfn (by simp)
          · exact ih stM st2 s h (by rw [hm]; exact hf)
          · exact ih stM st2 s h (by rw [hm]; exact hf)
          · exact ih stM st2 s h (by rw [hm]; exact hf)

lemma pairFold_auth_isSome (d : SubDecoders) (l : List (Int × CborVal)) :
    ∀ st st2, pairFold d st l = Except.ok st2 → st.auth_data.isSome →
      st2.auth_data.isSome := by
  induction l with
  | nil => intro st st2 h ha; simp [pairFold] at h; rw [← h]; exact ha
  | cons e rest ih =>
      intro st st2 h ha
      obtain ⟨k, v⟩ := e
      simp only [pairFold] at h
      cases hstep : pairStep d st (k, v) with
      | error err => rw [hstep] at h; exact absurd h (by simp)
      | ok stM =>
          rw [hstep] at h
          rcases pairStep_ok_cases d st k v stM hstep with
            ⟨_, _, _, _, hm⟩ | ⟨_, han, _, hm⟩ | ⟨_, _, _, _, hm⟩ | ⟨_, _, _, hm⟩
          · exact ih stM st2 h (by rw [hm]; exact ha)
          · rw [han] at ha; exact absurd ha (by simp)
          · exact ih stM st2 h (by rw [hm]; exact ha)
          · exact ih stM st2 h (by rw [hm]; exact ha)

lemma pairFold_att_isSome (d : SubDecoders) (l : List (Int × CborVal)) :
    ∀ st st2, pairFold d st l = Except.ok st2 → st.att_stmt.isSome →
      st2.att_stmt.isSome := by
  induction l with
  | nil => intro st st2 h ha; simp [pairFold] at h; rw [← h]; exact ha
  | cons e rest ih =>
      intro st st2 h ha
      obtain ⟨k, v⟩ := e
      simp only [pairFold] at h
      cases hstep : pairStep d st (k, v) with
      | error err => rw [hstep] at h; exact absurd h (by simp)
      | ok stM =>
          rw [hstep] at h
          rcases pairStep_ok_cases d st k v stM hstep with
            ⟨_, _, _, _, hm⟩ | ⟨_, _, _, hm⟩ | ⟨_, han, _, hm⟩ | ⟨_, _, _, hm⟩
          · exact ih stM st2 h (by rw [hm]; exact ha)
          · exact ih stM st2 h (by rw [hm]; exact ha)
          · rw [han] at ha; exact absurd ha (by simp)
          · exact ih stM st2 h (by rw [hm]; exact ha)

lemma pairFold_att_implies_format (d : SubDecoders) (l : List (Int × CborVal)) :
    ∀ st st2, pairFold d st l = Except.ok st2 →
      (st.att_stmt.isSome → st.format.isSome) →
      (st2.att_stmt.isSome → st2.format.isSome) := by
  induction l with
  | nil => intro st st2 h hinv; simp [pairFold] at h; rw [← h]; exact hinv
  | cons e rest ih =>
      intro st st2 h hinv
      obtain ⟨k, v⟩ := e
      simp only [pairFold] at h
      cases hstep : pairStep d st (k, v) with
      | error err => rw [hstep] at h; exact absurd h (by simp)
      | ok stM =>
          rw [hstep] at h
          rcases pairStep_ok_cases d st k v stM hstep with
            ⟨_, _, s, _, hm⟩ | ⟨_, _, a, hm⟩ | ⟨_, _, ⟨s, hfs, _⟩, t, hm⟩ | ⟨_, _, _, hm⟩
          · exact ih stM st2 h (by rw [hm]; intro _; simp)
          · exact ih stM st2 h (by rw [hm]; simpa using hinv)
          · exact ih stM st2 h (by rw [hm]; intro _; simp [hfs])
          · exact ih stM st2 h (by rw [hm]; exact hinv)

lemma pairFold_att_of_format_none (d : SubDecoders) (l : List (Int × CborVal)) :
    ∀ st st2, pairFold d st l = Except.ok st2 → st2.format = none →
      st2.att_stmt = st.att_stmt := by
  induction l with
  | nil => intro st st2 h _; simp [pairFold] at h; rw [← h]
  | cons e rest ih =>
      intro st st2 h hfn
      obtain ⟨k, v⟩ := e
      simp only [pairFold] at h
      cases hstep : pairStep d st (k, v) with
      | error err => rw [hstep] at h; exact absurd h (by simp)
      | ok stM =>
          rw [hstep] at h
          rcases pairStep_ok_cases d st k v stM hstep with
            ⟨_, _, s, _, hm⟩ | ⟨_, _, a, hm⟩ | ⟨_, _, ⟨s, hfs, _⟩, t, hm⟩ | ⟨_, _, _, hm⟩
          · have := pairFold_format_some d rest stM st2 s h (by rw [hm])
            rw [this] at hfn; exact absurd hfn (by simp)
          · have := ih stM st2 h hfn
            rw [this, hm]
          · have := pairFold_format_some d rest stM st2 s h (by rw [hm]; exact hfs)
            rw [this] at hfn; exact absurd hfn (by simp)
          · have := ih stM st2 h hfn
            rw [this, hm]

lemma pairFold_att_of_bad_fmt (d : SubDecoders) (l : List (Int × CborVal)) :
    ∀ st st2 s, pairFold d st l = Except.ok st2 → st.format = some s → ¬ goodFmt s →
      st2.att_stmt = st.att_stmt := by
  induction l with
  | nil => intro st st2 s h _ _; simp [pairFold] at h; rw [← h]
  | cons e rest ih =>
      intro st st2 s h hfs hbad
      obtain ⟨k, v⟩ := e
      simp only [pairFold] at h
      cases hstep : pairStep d st (k, v) with
      | error err => rw [hstep] at h; exact absurd h (by simp)
      | ok stM =>
          rw [hstep] at h
          rcases pairStep_ok_cases d st k v stM hstep with
            ⟨_, hfn, _, _, _⟩ | ⟨_, _, a, hm⟩ | ⟨_, _, ⟨t, hft, hgood⟩, _, _⟩ | ⟨_, _, _, hm⟩
          · rw [hfs] at hfn; exact absurd hfn (by simp)
          · have := ih stM st2 s h (by rw [hm]; exact hfs) hbad
            rw [this, hm]
          · rw [hfs] at hft
            cases hft
            exact absurd hgood hbad
          · have := ih stM st2 s h (by rw [hm]; exact hfs) hbad
            rw [this, hm]

lemma pairFold_key1_sets_format (d : SubDecoders) (l : List (Int × CborVal))
    (st st2 : VisitState) (v : CborVal) (hmem : (1, v) ∈ l)
    (h : pairFold d st l = Except.ok st2) : st2.format.isSome := by
  obtain ⟨pre, suf, rfl⟩ := List.append_of_mem hmem
  obtain ⟨stP, _, hrest⟩ := pairFold_append_ok d pre ((1, v) :: suf) st st2 h
  simp only [pairFold] at hrest
  cases hstep : pairStep d stP (1, v) with
  | error err => rw [hstep] at hrest; exact absurd hrest (by simp)
  | ok stM =>
      rw [hstep] at hrest
      rcases pairStep_ok_cases d stP 1 v stM hstep with
        ⟨_, _, s, _, hm⟩ | ⟨hk, _, _⟩ | ⟨hk, _, _⟩ | ⟨hk, _, _⟩
      · have := pairFold_format_some d suf stM st2 s hrest (by rw [hm])
        simp [this]
      · exact absurd hk (by norm_num)
      · exact absurd hk (by norm_num)
      · exact absurd rfl hk

lemma pairFold_key2_sets_auth (d : SubDecoders) (l : List (Int × CborVal))
    (st st2 : VisitState) (v : CborVal) (hmem : (2, v) ∈ l)
    (h : pairFold d st l = Except.ok st2) : st2.auth_data.isSome := by
  obtain ⟨pre, suf, rfl⟩ := List.append_of_mem hmem
  obtain ⟨stP, _, hrest⟩ := pairFold_append_ok d pre ((2, v) :: suf) st st2 h
  simp only [pairFold] at hrest
  cases hstep : pairStep d stP (2, v) with
  | error err => rw [hstep] at hrest; exact absurd hrest (by simp)
  | ok stM =>
      rw [hstep] at hrest
      rcases pairStep_ok_cases d stP 2 v stM hstep with
        ⟨hk, _, _⟩ | ⟨_, _, a, hm⟩ | ⟨hk, _, _⟩ | ⟨_, hk, _⟩
      · exact absurd hk (by norm_num)
      · exact pairFold_auth_isSome d suf stM st2 hrest (by rw [hm]; simp)
      · exact absurd hk (by norm_num)
      · exact absurd rfl hk

lemma pairFold_key3_sets_att (d : SubDecoders) (l : List (Int × CborVal))
    (st st2 : VisitState) (v : CborVal) (hmem : (3, v) ∈ l)
    (h : pairFold d st l = Except.ok st2) : st2.att_stmt.isSome := by
  obtain ⟨pre, suf, rfl⟩ := List.append_of_mem hmem
  obtain ⟨stP, _, hrest⟩ := pairFold_append_ok d pre ((3, v) :: suf) st st2 h
  simp only [pairFold] at hrest
  cases hstep : pairStep d stP (3, v) with
  | error err => rw [hstep] at hrest; exact absurd hrest (by simp)
  | ok stM =>
      rw [hstep] at hrest
      rcases pairStep_ok_cases d stP 3 v stM hstep with
        ⟨hk, _, _⟩ | ⟨hk, _, _⟩ | ⟨_, _, _, t, hm⟩ | ⟨_, _, hk, _⟩
      · exact absurd hk (by norm_num)
      · exact absurd hk (by norm_num)
      · exact pairFold_att_isSome d suf stM st2 hrest (by rw [hm]; simp)
      · exact absurd rfl hk

lemma pairStep_dup1 (d : SubDecoders) (st : VisitState) (v : CborVal)
    (hf : st.format.isSome) :
    pairStep d st (1, v) = Except.error (DErr.duplicateField ("fmt (0x01)")) := by
  simp [pairStep, hf]

lemma pairStep_dup2 (d : SubDecoders) (st : VisitState) (v : CborVal)
    (ha : st.auth_data.isSome) :
    pairStep d st (2, v) = Except.error (DErr.duplicateField ("authData (0x02)")) := by
  simp [pairStep, ha]

lemma pairStep_dup3 (d : SubDecoders) (st : VisitState) (v : CborVal)
    (hf : st.format.isSome) (ha : st.att_stmt.isSome) :
    pairStep d st (3, v) = Except.error (DErr.duplicateField ("attStmt (0x03)")) := by
  obtain ⟨s, hs⟩ := Option.isSome_iff_exists.mp hf
  simp [pairStep, hs, ha]

lemma pairFold_attBeforeFmt (d : SubDecoders) (l : List (Int × CborVal)) :
    ∀ st, st.format = none → hasAttBeforeFmt l = true →
      ∃ e, pairFold d st l = Except.error e := by
  induction l with
  | nil => intro st _ hbad; simp [hasAttBeforeFmt] at hbad
  | cons kv rest ih =>
      intro st hfn hbad
      obtain ⟨k, v⟩ := kv
      by_cases h3 : k = 3
      · subst h3
        refine ⟨DErr.missingField ("fmt (0x01)"), ?_⟩
        simp [pairFold, pairStep, hfn]
      · by_cases h1 : k = 1
        · subst h1; simp [hasAttBeforeFmt] at hbad
        · have hbad2 : hasAttBeforeFmt rest = true := by
            simpa [hasAttBeforeFmt, h3, h1] using hbad
          simp only [pairFold]
          cases hstep : pairStep d st (k, v) with
          | error err => exact ⟨err, rfl⟩
          | ok stM =>
              have hfnM : stM.format = none := by
                rcases pairStep_ok_cases d st k v stM hstep with
                  ⟨hk, _, _⟩ | ⟨_, _, a, hm⟩ | ⟨hk, _, _⟩ | ⟨_, _, _, hm⟩
                · exact absurd hk h1
                · rw [hm]; exact hfn
                · exact absurd hk h3
                · rw [hm]; exact hfn
              exact ih stM hfnM hbad2

lemma visitLoop_cons_known (d : SubDecoders) (n : Nat) (k : Int) (v : CborVal)
    (tail : List CborVal) (st : VisitState) (hk : k = 1 ∨ k = 2 ∨ k = 3) :
    visitLoop d (n + 1) (CborVal.intV k :: v :: tail) st =
      match pairStep d st (k, v) with
      | Except.error e => Except.error e
      | Except.ok st2 => visitLoop d n tail st2 := by
  rcases hk with hk | hk | hk <;> subst hk
  · cases hf : st.format with
    | some s => simp [visitLoop, decodeInt, pairStep, hf]
    | none =>
        cases hdt : decodeText v with
        | error e => simp [visitLoop, decodeInt, pairStep, hf, hdt]
        | ok s => simp [visitLoop, decodeInt, pairStep, hf, hdt]
  · cases ha : st.auth_data with
    | some a => simp [visitLoop, decodeInt, pairStep, ha]
    | none =>
        cases hda : d.decAuth v with
        | error e => simp [visitLoop, decodeInt, pairStep, ha, hda]
        | ok a => simp [visitLoop, decodeInt, pairStep, ha, hda]
  · cases hf : st.format with
    | none => simp [visitLoop, decodeInt, pairStep, hf]
    | some fmt =>
        cases ha : st.att_stmt with
        | some t => simp [visitLoop, decodeInt, pairStep, hf, ha]
        | none =>
            by_cases hn : fmt = "none"
            · subst hn
              cases v with
              | vmap m =>
                  cases m with
                  | zero => simp [visitLoop, decodeInt, pairStep, hf, ha]
                  | succ m2 => simp [visitLoop, decodeInt, pairStep, hf, ha]
              | text s => simp [visitLoop, decodeInt, pairStep, hf, ha]
              | bytes b => simp [visitLoop, decodeInt, pairStep, hf, ha]
              | intV n2 => simp [visitLoop, decodeInt, pairStep, hf, ha]
            · by_cases hp : fmt = "packed"
              · subst hp
                cases hdp : d.decPacked v with
                | error e => simp [visitLoop, decodeInt, pairStep, hf, ha, hn, hdp]
                | ok p => simp [visitLoop, decodeInt, pairStep, hf, ha, hn, hdp]
              · by_cases hu : fmt = "fido-u2f"
                · subst hu
                  cases hdu : d.decU2F v with
                  | error e => simp [visitLoop, decodeInt, pairStep, hf, ha, hn, hp, hdu]
                  | ok f => simp [visitLoop, decodeInt, pairStep, hf, ha, hn, hp, hdu]
                · simp [visitLoop, decodeInt, pairStep, hf, ha, hn, hp, hu]

lemma visitLoop_eq_pairFold (d : SubDecoders) :
    ∀ entries : List (Int × CborVal), wellKeyed entries →
      ∀ st, visitLoop d entries.length (pairsToStream entries) st = pairFold d st entries := by
  intro entries
  induction entries with
  | nil => intro _ st; rfl
  | cons p rest ih =>
      intro hw st
      obtain ⟨k, v⟩ := p
      have hk : k = 1 ∨ k = 2 ∨ k = 3 := hw (k, v) (List.mem_cons_self _ _)
      have hw2 : wellKeyed rest := fun q hq => hw q (List.mem_cons_of_mem _ hq)
      show visitLoop d (rest.length + 1) (CborVal.intV k :: v :: pairsToStream rest) st =
        pairFold d st ((k, v) :: rest)
      rw [visitLoop_cons_known d rest.length k v (pairsToStream rest) st hk]
      simp only [pairFold]
      cases pairStep d st (k, v) with
      | error e => rfl
      | ok st2 => exact ih hw2 st2

lemma decodePairs_eq_pairDecode (d : SubDecoders) (entries : List (Int × CborVal))
    (hw : wellKeyed entries) : decodePairs d entries = pairDecode d entries := by
  unfold decodePairs visit_map pairDecode
  rw [visitLoop_eq_pairFold d entries hw]

/-- C5 amended and proved.  For maps all of whose keys lie in {1,2,3}:
(1) an attStmt entry before any fmt entry makes decoding fail; (2) a
fmt string outside {none, packed, fido-u2f} makes decoding fail; (3) a
key occurring twice makes decoding fail, and (4) the failure is a
duplicate-field error naming the field whenever the entries preceding
the repeat themselves process without error.  (5) An entry with any
other integer key is dispatched nowhere but only its key item is
consumed: the loop continues with the value item still at the head of
the stream, where it is parsed as the next key — so unknown keys are
not transparently skipped and can change the decoded outcome (see the
counterexample). -/
theorem c5_visit_map_amended (d : SubDecoders) (entries : List (Int × CborVal)) :
    (wellKeyed entries → hasAttBeforeFmt entries = true →
      ∃ e, decodePairs d entries = Except.error e) ∧
    (wellKeyed entries → ∀ s, (1, CborVal.text s) ∈ entries → ¬ goodFmt s →
      ∃ e, decodePairs d entries = Except.error e) ∧
    (wellKeyed entries → ∀ pre mid suf k v1 v2,
      entries = pre ++ [(k, v1)] ++ mid ++ [(k, v2)] ++ suf →
      (k = 1 ∨ k = 2 ∨ k = 3) → ∃ e, decodePairs d entries = Except.error e) ∧
    (wellKeyed entries → ∀ pre suf k v v0 stP, entries = pre ++ [(k, v)] ++ suf →
      (k = 1 ∨ k = 2 ∨ k = 3) → (k, v0) ∈ pre →
      visitLoop d pre.length (pairsToStream pre) ⟨none, none, none⟩ = Except.ok stP →
      decodePairs d entries = Except.error (DErr.duplicateField (dupFieldName k))) ∧
    (∀ count stream st k, ¬ (k = 1 ∨ k = 2 ∨ k = 3) →
      visitLoop d (count + 1) (CborVal.intV k :: stream) st =
        visitLoop d count stream st) := by
  refine ⟨?_, ?_, ?_, ?_, ?_⟩
  · -- (1) attStmt before fmt
    intro hw hbad
    obtain ⟨e, he⟩ := pairFold_attBeforeFmt d entries ⟨none, none, none⟩ rfl hbad
    refine ⟨e, ?_⟩
    rw [decodePairs_eq_pairDecode d entries hw]
    simp [pairDecode, he]
  · -- (2) unknown fmt string
    intro hw s hmem hbad
    rw [decodePairs_eq_pairDecode d entries hw]
    cases hfold : pairFold d ⟨none, none, none⟩ entries with
    | error e => exact ⟨e, by simp [pairDecode, hfold]⟩
    | ok stF =>
        obtain ⟨pre, suf, rfl⟩ := List.append_of_mem hmem
        obtain ⟨stP, hpre, hrest⟩ :=
          pairFold_append_ok d pre ((1, CborVal.text s) :: suf) _ _ hfold
        simp only [pairFold] at hrest
        cases hstep : pairStep d stP (1, CborVal.text s) with
        | error err => rw [hstep] at hrest; exact absurd hrest (by simp)
        | ok stM =>
            rw [hstep] at hrest
            rcases pairStep_ok_cases d stP 1 (CborVal.text s) stM hstep with
              ⟨_, hfP, s2, hveq, hm⟩ | ⟨hk, _, _⟩ | ⟨hk, _, _⟩ | ⟨hk, _, _⟩
            · have hs2 : s2 = s := by
                cases hveq; rfl
              subst hs2
              have hattP : stP.att_stmt = none := by
                have := pairFold_att_of_format_none d pre ⟨none, none, none⟩ stP hpre hfP
                simpa using this
              have hattF : stF.att_stmt = none := by
                have := pairFold_att_of_bad_fmt d suf stM stF s2 hrest
                  (by rw [hm]) hbad
                rw [this, hm]
                exact hattP
              cases hauth : stF.auth_data with
              | none =>
                  exact ⟨DErr.custom ("found no authData (0x02)"),
                    by simp [pairDecode, hfold, visitFinish, hauth]⟩
              | some ad =>
                  exact ⟨DErr.custom ("found no attStmt (0x03)"),
                    by simp [pairDecode, hfold, visitFinish, hauth, hattF]⟩
            · exact absurd hk (by norm_num)
            · exact absurd hk (by norm_num)
            · exact absurd rfl hk
  · -- (3) a repeated key of {1,2,3} always fails
    intro hw pre mid suf k v1 v2 hl hk
    subst hl
    rw [decodePairs_eq_pairDecode d _ hw]
    cases hfold : pairFold d ⟨none, none, none⟩
        (pre ++ [(k, v1)] ++ mid ++ [(k, v2)] ++ suf) with
    | error e => exact ⟨e, by simp only [pairDecode, hfold]⟩
    | ok stF =>
        exfalso
        obtain ⟨stD, hD, _⟩ :=
          pairFold_append_ok d (pre ++ [(k, v1)] ++ mid ++ [(k, v2)]) suf _ _ hfold
        obtain ⟨stC, hC, hstep2f⟩ :=
          pairFold_append_ok d (pre ++ [(k, v1)] ++ mid) [(k, v2)] _ _ hD
        obtain ⟨stB, hB, hmid⟩ := pairFold_append_ok d (pre ++ [(k, v1)]) mid _ _ hC
        obtain ⟨stA, hpre, hstep1f⟩ := pairFold_append_ok d pre [(k, v1)] _ _ hB
        rw [pairFold_singleton] at hstep1f hstep2f
        rcases hk with hk | hk | hk
        · subst hk
          have hBf : stB.format.isSome := by
            rcases pairStep_ok_cases d stA 1 v1 stB hstep1f with
              ⟨_, _, s, _, hm⟩ | ⟨hk2, _, _⟩ | ⟨hk2, _, _⟩ | ⟨hk2, _, _⟩
            · rw [hm]; simp
            · exact absurd hk2 (by norm_num)
            · exact absurd hk2 (by norm_num)
            · exact absurd rfl hk2
          obtain ⟨s, hs⟩ := Option.isSome_iff_exists.mp hBf
          have hCf : stC.format = some s := pairFold_format_some d mid stB stC s hmid hs
          rw [pairStep_dup1 d stC v2 (by simp [hCf])] at hstep2f
          exact absurd hstep2f (by simp)
        · subst hk
          have hBa : stB.auth_data.isSome := by
            rcases pairStep_ok_cases d stA 2 v1 stB hstep1f with
              ⟨hk2, _, _⟩ | ⟨_, _, a, hm⟩ | ⟨hk2, _, _⟩ | ⟨_, hk2, _⟩
            · exact absurd hk2 (by norm_num)
            · rw [hm]; simp
            · exact absurd hk2 (by norm_num)
            · exact absurd rfl hk2
          have hCa : stC.auth_data.isSome := pairFold_auth_isSome d mid stB stC hmid hBa
          rw [pairStep_dup2 d stC v2 hCa] at hstep2f
          exact absurd hstep2f (by simp)
        · subst hk
          have hBb : stB.att_stmt.isSome ∧ stB.format.isSome := by
            rcases pairStep_ok_cases d stA 3 v1 stB hstep1f with
              ⟨hk2, _, _⟩ | ⟨hk2, _, _⟩ | ⟨_, _, ⟨s, hfs, _⟩, t, hm⟩ | ⟨_, _, hk2, _⟩
            · exact absurd hk2 (by norm_num)
            · exact absurd hk2 (by norm_num)
            · rw [hm]; simp [hfs]
            · exact absurd rfl hk2
          obtain ⟨s, hs⟩ := Option.isSome_iff_exists.mp hBb.2
          have hCf : stC.format = some s := pairFold_format_some d mid stB stC s hmid hs
          have hCa : stC.att_stmt.isSome := pairFold_att_isSome d mid stB stC hmid hBb.1
          rw [pairStep_dup3 d stC v2 (by simp [hCf]) hCa] at hstep2f
          exact absurd hstep2f (by simp)
  · -- (4) duplicate-field error naming when the prefix processes cleanly
    intro hw pre suf k v v0 stP hl hk hmem hpreLoop
    subst hl
    have hwpre : wellKeyed pre := fun q hq =>
      hw q (List.mem_append_left _ (List.mem_append_left _ hq))
    have hpre : pairFold d ⟨none, none, none⟩ pre = Except.ok stP := by
      rw [← visitLoop_eq_pairFold d pre hwpre]
      exact hpreLoop
    rw [decodePairs_eq_pairDecode d _ hw]
    have hstep : pairStep d stP (k, v) = Except.error (DErr.duplicateField (dupFieldName k)) := by
      rcases hk with hk | hk | hk
      · subst hk
        exact pairStep_dup1 d stP v (pairFold_key1_sets_format d pre _ stP v0 hmem hpre)
      · subst hk
        exact pairStep_dup2 d stP v (pairFold_key2_sets_auth d pre _ stP v0 hmem hpre)
      · subst hk
        have hatt : stP.att_stmt.isSome := pairFold_key3_sets_att d pre _ stP v0 hmem hpre
        have hfmt : stP.format.isSome :=
          pairFold_att_implies_format d pre _ stP hpre (by simp) hatt
        exact pairStep_dup3 d stP v hfmt hatt
    have hall : pairFold d ⟨none, none, none⟩ (pre ++ [(k, v)] ++ suf) =
        Except.error (DErr.duplicateField (dupFieldName k)) := by
      rw [pairFold_append d (pre ++ [(k, v)]) suf, pairFold_append d pre [(k, v)], hpre]
      simp only [pairFold_singleton, hstep]
    simp only [pairDecode, hall]
  · -- (5) the continue arm consumes only the key item
    intro count stream st k hk
    push_neg at hk
    simp [visitLoop, decodeInt, hk.1, hk.2.1, hk.2.2]

/-- Sub-decoders used by the concrete evaluation lemmas: authenticator
data always decodes to the sample value, the other two always fail. -/
def d0 : SubDecoders where
  decAuth := fun _ => Except.ok sampleAuthData
  decPacked := fun _ => Except.error (DErr.custom ("no packed"))
  decU2F := fun _ => Except.error (DErr.custom ("no u2f"))

/-- C5 counterexample, refuting the claim at two points.  (a) A response
map in which key 3 appears twice (and key 1 never) fails with a
missing-field error, not the duplicate-field error the claim demands
for every repeated key.  (b) Unknown keys are not skipped without
affecting the decoded result: a map decoding successfully once its
unknown-key entry is removed fails with that entry present, because
`_ => continue` leaves the unread value item in the stream where it is
parsed as the next key and burns a unit of the declared pair count. -/
theorem c5_counterexample :
    (decodePairs d0 [(3, CborVal.vmap 0), (3, CborVal.vmap 0)] =
      Except.error (DErr.missingField ("fmt (0x01)"))) ∧
    (isDuplicateFieldErr
      (decodePairs d0 [(3, CborVal.vmap 0), (3, CborVal.vmap 0)]) = false) ∧
    (decodePairs d0 [(4, CborVal.intV 5), (1, CborVal.text ("none")),
        (2, CborVal.bytes []), (3, CborVal.vmap 0)] =
      Except.error (DErr.custom ("found no attStmt (0x03)"))) ∧
    (([(4, CborVal.intV 5), (1, CborVal.text ("none")), (2, CborVal.bytes []),
        (3, CborVal.vmap 0)] : List (Int × CborVal)).filter
          (fun e => e.1 = 1 ∨ e.1 = 2 ∨ e.1 = 3) =
      [(1, CborVal.text ("none")), (2, CborVal.bytes []), (3, CborVal.vmap 0)]) ∧
    (decodePairs d0 [(1, CborVal.text ("none")), (2, CborVal.bytes []),
        (3, CborVal.vmap 0)] = Except.ok sampleRes) :=
  ⟨rfl, rfl, rfl, rfl, rfl⟩

/-- C5 witness: each clause of the amended theorem applied at concrete
inputs with its hypotheses discharged there. -/
theorem c5_visit_map_amended_witness :
    (∃ e, decodePairs d0 [(3, CborVal.vmap 0)] = Except.error e) ∧
    (∃ e, decodePairs d0 [(1, CborVal.text ("bogus"))] = Except.error e) ∧
    (∃ e, decodePairs d0 [(2, CborVal.bytes []), (2, CborVal.bytes [])] =
      Except.error e) ∧
    (decodePairs d0 [(2, CborVal.bytes []), (2, CborVal.bytes [])] =
      Except.error (DErr.duplicateField (dupFieldName 2))) ∧
    (visitLoop d0 1 [CborVal.intV 4] ⟨none, none, none⟩ =
      visitLoop d0 0 [] ⟨none, none, none⟩) :=
  ⟨(c5_visit_map_amended d0 [(3, CborVal.vmap 0)]).1 (by decide) rfl,
   (c5_visit_map_amended d0 [(1, CborVal.text ("bogus"))]).2.1 (by decide) "bogus"
     (List.mem_singleton.mpr rfl) (by simp [goodFmt]),
   (c5_visit_map_amended d0 [(2, CborVal.bytes []), (2, CborVal.bytes [])]).2.2.1
     (by decide) [] [] [] 2 (CborVal.bytes []) (CborVal.bytes []) rfl
     (Or.inr (Or.inl rfl)),
   (c5_visit_map_amended d0 [(2, CborVal.bytes []), (2, CborVal.bytes [])]).2.2.2.1
     (by decide) [(2, CborVal.bytes [])] [] 2 (CborVal.bytes []) (CborVal.bytes [])
     ⟨none, some sampleAuthData, none⟩ rfl (Or.inr (Or.inl rfl))
     (List.mem_singleton.mpr rfl) rfl,
   (c5_visit_map_amended d0 []).2.2.2.2 0 [] ⟨none, none, none⟩ 4 (by decide)⟩

/-- Modelled from the spec: the command-level error kinds of
`CommandError` the source constructs; the status code keeps the raw
status byte, the optional diagnostic is a raw decoded CBOR value. -/
inductive CommandError
  | inputTooSmall
  | deserializing (e : DErr)
  | serializingErr (e : DErr)
  | statusCode (code : Nat) (data : Option CborVal)
  | crypto (msg : String)
deriving DecidableEq, Repr

/-- Modelled from the spec: the legacy transport status values; the one
recoverable status is `conditionsNotSatisfied`. -/
inductive ApduErrorStatus
  | conditionsNotSatisfied
  | other (sw1 : Nat) (sw2 : Nat)
deriving DecidableEq, Repr

/-- Modelled from the spec: the transport-level error wrapper
(`HIDError`), restricted to the variants this source file produces. -/
inductive HIDErrorM
  | command (e : CommandError)
  | apduStatus (s : ApduErrorStatus)
deriving DecidableEq, Repr

/-- `Retryable` of the source: a retry signal or a fatal error. -/
inductive Retryable (α : Type)
  | retry
  | fatal (e : α)
deriving DecidableEq, Repr

/-- `MakeCredentials::handle_response_ctap2` of the source (lines
522-552).  `isOk` models `StatusCode::is_ok` (absent from `src/`);
`parseResult` and `parseValue` model the two `from_slice` body decoders
(the given CBOR library).  The response handler is proved for every
behavior of the three. -/
def handle_response_ctap2 (isOk : Nat → Bool)
    (parseResult : List Nat → Except DErr MakeCredentialsResult)
    (parseValue : List Nat → Except DErr CborVal)
    (self : MakeCredentials) (maybe_info : Option AuthenticatorInfo)
    (input : List Nat) : Except HIDErrorM MakeCredentialsResult :=
  match input with
  | [] => Except.error (HIDErrorM.command CommandError.inputTooSmall)
  | status :: rest =>
    if rest.isEmpty then
      if isOk status then Except.error (HIDErrorM.command CommandError.inputTooSmall)
      else Except.error (HIDErrorM.command (CommandError.statusCode status none))
    else if isOk status then
      match parseResult rest with
      | Except.error e => Except.error (HIDErrorM.command (CommandError.deserializing e))
      | Except.ok output => Except.ok (finalize_result self maybe_info output)
    else
      match parseValue rest with
      | Except.error e => Except.error (HIDErrorM.command (CommandError.deserializing e))
      | Except.ok data =>
          Except.error (HIDErrorM.command (CommandError.statusCode status (some data)))

/-- C6: modern response framing — empty input is InputTooSmall; a lone
success status byte is InputTooSmall; a lone non-success status byte is
a StatusCode error with no diagnostic; a longer non-success response
carries the body, decoded as a raw value, inside the StatusCode
error. -/
theorem c6_handle_response_ctap2_framing (isOk : Nat → Bool)
    (parseResult : List Nat → Except DErr MakeCredentialsResult)
    (parseValue : List Nat → Except DErr CborVal)
    (self : MakeCredentials) (maybe_info : Option AuthenticatorInfo) :
    (handle_response_ctap2 isOk parseResult parseValue self maybe_info [] =
      Except.error (HIDErrorM.command CommandError.inputTooSmall)) ∧
    (∀ b, isOk b = true →
      handle_response_ctap2 isOk parseResult parseValue self maybe_info [b] =
        Except.error (HIDErrorM.command CommandError.inputTooSmall)) ∧
    (∀ b, isOk b = false →
      handle_response_ctap2 isOk parseResult parseValue self maybe_info [b] =
        Except.error (HIDErrorM.command (CommandError.statusCode b none))) ∧
    (∀ b rest v, rest ≠ [] → isOk b = false → parseValue rest = Except.ok v →
      handle_response_ctap2 isOk parseResult parseValue self maybe_info (b :: rest) =
        Except.error (HIDErrorM.command (CommandError.statusCode b (some v)))) := by
  refine ⟨rfl, ?_, ?_, ?_⟩
  · intro b hb
    simp [handle_response_ctap2, hb]
  · intro b hb
    simp [handle_response_ctap2, hb]
  · intro b rest v hrest hb hv
    simp [handle_response_ctap2, hrest, hb, hv]

/-- C6 witness: the framing theorem applied at a concrete status
predicate (status byte 0 is success), body parsers and inputs. -/
theorem c6_handle_response_ctap2_framing_witness :
    ((fun b => decide (b = 0)) (1 : Nat) = false) ∧
    ([(0x42 : Nat)] ≠ ([] : List Nat)) ∧
    ((fun _ => Except.ok (CborVal.intV 7) :
        List Nat → Except DErr CborVal) [0x42] = Except.ok (CborVal.intV 7)) ∧
    (handle_response_ctap2 (fun b => decide (b = 0))
        (fun _ => Except.error (DErr.custom ("unused")))
        (fun _ => Except.ok (CborVal.intV 7)) sampleReq none [1, 0x42] =
      Except.error (HIDErrorM.command (CommandError.statusCode 1 (some (CborVal.intV 7))))) :=
  ⟨by decide, by decide, rfl,
    (c6_handle_response_ctap2_framing (fun b => decide (b = 0))
        (fun _ => Except.error (DErr.custom ("unused")))
        (fun _ => Except.ok (CborVal.intV 7)) sampleReq none).2.2.2
      1 [0x42] (CborVal.intV 7) (by decide) (by decide) rfl⟩

/-- Modelled from the spec: `read_exact` on a byte cursor — take `n`
bytes if available, with the rest of the buffer. -/
def readExact (n : Nat) (l : List Nat) : Option (List Nat × List Nat) :=
  if n ≤ l.length then some (l.take n, l.drop n) else none

/-- Modelled from the spec: `serde_parse_err` of `ctap2/utils.rs`
(absent from `src/`) builds a custom decode error naming the field. -/
def serde_parse_err (s : String) : DErr := DErr.custom s

/-- `MakeCredentialsResult::from_ctap1` of the source (lines 44-112).
`parseCert` models `parse_u2f_der_certificate` (splits the trailing
bytes into certificate and signature, or fails); `parseKey` models
`COSEEC2Key::from_sec1_uncompressed`; both live outside this source
file, so the claims are proved for every behavior of them. -/
def from_ctap1 (parseCert : List Nat → Except String (List Nat × List Nat))
    (parseKey : Curve → List Nat → Except String COSEEC2Key)
    (input : List Nat) (rp_id_hash : List Nat) :
    Except CommandError MakeCredentialsResult :=
  match input with
  | [] => Except.error (CommandError.deserializing (DErr.custom ("unexpected end of data")))
  | magic_num :: rest =>
    if magic_num = 0x05 then
      match readExact 65 rest with
      | none =>
          Except.error (CommandError.deserializing (serde_parse_err ("PublicKey")))
      | some (public_key, rest2) =>
        match rest2 with
        | [] =>
            Except.error
              (CommandError.deserializing (DErr.custom ("unexpected end of data")))
        | credential_id_len :: rest3 =>
          match readExact credential_id_len rest3 with
          | none =>
              Except.error (CommandError.deserializing (serde_parse_err ("CredentialId")))
          | some (credential_id, rest4) =>
            match parseCert rest4 with
            | Except.error err =>
                Except.error (CommandError.deserializing
                  (serde_parse_err ("Certificate and Signature: " ++ err)))
            | Except.ok (certificate, signature) =>
              match parseKey Curve.SECP256R1 public_key with
              | Except.error err =>
                  Except.error (CommandError.deserializing
                    (serde_parse_err ("EC2 Key: " ++ err)))
              | Except.ok credential_ec2_key =>
                Except.ok
                  { att_obj :=
                      { auth_data :=
                          { rp_id_hash := rp_id_hash
                            flags := USER_PRESENT ||| ATTESTED
                            counter := 0
                            credential_data := some
                              { aaguid := zeroAAGuid
                                credential_id := credential_id
                                credential_public_key :=
                                  { alg := COSEAlgorithm.ES256
                                    key := COSEKeyType.EC2 credential_ec2_key } }
                            extensions := default
                            raw_data := input }
                        att_stmt := AttestationStatement.FidoU2F
                          { attestation_cert := certificate, signature := signature } }
                    attachment := AuthenticatorAttachment.Unknown
                    extensions := default }
    else
      Except.error (CommandError.deserializing
        (DErr.invalidValue (toString magic_num) ("0x05")))

/-- Whether a legacy-parse outcome is Ok or a Deserializing error (the
only two shapes `from_ctap1` may produce). -/
def ok_or_deserializing : Except CommandError MakeCredentialsResult → Bool
  | Except.ok _ => true
  | Except.error (CommandError.deserializing _) => true
  | _ => false

/-- C7: `from_ctap1` is total on arbitrary byte sequences (the embedding
is a total function, mirroring panic-freedom) and only ever returns Ok
or a Deserializing error; and any input whose first byte is not 0x05
fails with a decode error identifying the received byte value. -/
theorem c7_from_ctap1_total (parseCert : List Nat → Except String (List Nat × List Nat))
    (parseKey : Curve → List Nat → Except String COSEEC2Key)
    (input : List Nat) (rp_id_hash : List Nat) :
    (ok_or_deserializing (from_ctap1 parseCert parseKey input rp_id_hash) = true) ∧
    (∀ b rest, input = b :: rest → b ≠ 0x05 →
      from_ctap1 parseCert parseKey input rp_id_hash =
        Except.error (CommandError.deserializing
          (DErr.invalidValue (toString b) ("0x05")))) := by
  constructor
  · cases hr : from_ctap1 parseCert parseKey input rp_id_hash with
    | ok r => rfl
    | error e =>
        unfold from_ctap1 at hr
        repeat' split at hr
        all_goals
          first
            | exact Except.noConfusion hr
            | (simp only [Except.error.injEq] at hr
               simp [ok_or_deserializing, ← hr])
  · intro b rest hin hb
    subst hin
    simp [from_ctap1, hb]

/-- C7 witness: the theorem applied at a concrete rejected input whose
first byte is 0x06. -/
theorem c7_from_ctap1_total_witness :
    (ok_or_deserializing (from_ctap1 (fun l => Except.ok (l, []))
        (fun _ _ => Except.ok ⟨Curve.SECP256R1, [], []⟩) [0x06] []) = true) ∧
    (from_ctap1 (fun l => Except.ok (l, []))
        (fun _ _ => Except.ok ⟨Curve.SECP256R1, [], []⟩) [0x06] [] =
      Except.error (CommandError.deserializing
        (DErr.invalidValue (toString (0x06 : Nat)) ("0x05")))) := by
  refine ⟨?_, ?_⟩
  · exact (c7_from_ctap1_total (fun l => Except.ok (l, []))
      (fun _ _ => Except.ok ⟨Curve.SECP256R1, [], []⟩) [0x06] []).1
  · exact (c7_from_ctap1_total (fun l => Except.ok (l, []))
      (fun _ _ => Except.ok ⟨Curve.SECP256R1, [], []⟩) [0x06] []).2
      0x06 [] rfl (by decide)

/-- C8: any result accepted by the legacy parser has flags exactly
user-present OR attested-data-present, a zero signature counter, the
zero default authenticator id, the full original input as raw byte
span, and the legacy certificate-plus-signature attestation variant. -/
theorem c8_from_ctap1_reconstruction
    (parseCert : List Nat → Except String (List Nat × List Nat))
    (parseKey : Curve → List Nat → Except String COSEEC2Key)
    (input : List Nat) (rp_id_hash : List Nat) (r : MakeCredentialsResult)
    (h : from_ctap1 parseCert parseKey input rp_id_hash = Except.ok r) :
    r.att_obj.auth_data.flags = (USER_PRESENT ||| ATTESTED) ∧
    r.att_obj.auth_data.counter = 0 ∧
    (∃ cd, r.att_obj.auth_data.credential_data = some cd ∧ cd.aaguid = zeroAAGuid) ∧
    r.att_obj.auth_data.raw_data = input ∧
    (∃ f, r.att_obj.att_stmt = AttestationStatement.FidoU2F f) := by
  unfold from_ctap1 at h
  repeat' split at h
  all_goals
    first
      | exact Except.noConfusion h
      | (simp only [Except.ok.injEq] at h
         subst h
         exact ⟨rfl, rfl, ⟨_, rfl, rfl⟩, rfl, ⟨_, rfl⟩⟩)

/-- A successfully parsing concrete legacy response: magic byte 0x05, a
65-byte public key, a zero-length credential id, and an empty
certificate area. -/
def legacyInput : List Nat := 0x05 :: (List.replicate 65 0 ++ [0])

/-- C8 witness: a concrete input accepted by the legacy parser, with the
reconstruction theorem applied to it. -/
theorem c8_from_ctap1_reconstruction_witness :
    (∃ r, from_ctap1 (fun l => Except.ok (l, []))
      (fun _ _ => Except.ok ⟨Curve.SECP256R1, [], []⟩) legacyInput [] =
        Except.ok r ∧
      (r.att_obj.auth_data.flags = (USER_PRESENT ||| ATTESTED) ∧
       r.att_obj.auth_data.counter = 0 ∧
       (∃ cd, r.att_obj.auth_data.credential_data = some cd ∧ cd.aaguid = zeroAAGuid) ∧
       r.att_obj.auth_data.raw_data = legacyInput ∧
       (∃ f, r.att_obj.att_stmt = AttestationStatement.FidoU2F f))) := by
  refine ⟨_, rfl, ?_⟩
  exact c8_from_ctap1_reconstruction (fun l => Except.ok (l, []))
    (fun _ _ => Except.ok ⟨Curve.SECP256R1, [], []⟩) legacyInput [] _ rfl

/-- `MakeCredentials::handle_response_ctap1` of the source (lines
481-499).  The transport status is `none` for success, or a
`ApduErrorStatus`; `rpHashF` models `RelyingParty::hash` (absent from
`src/`); `parseCert`/`parseKey` are the legacy parser's collaborators
and `maybe_info` the device capability used by `finalize_result`. -/
def handle_response_ctap1 (parseCert : List Nat → Except String (List Nat × List Nat))
    (parseKey : Curve → List Nat → Except String COSEEC2Key)
    (rpHashF : RelyingParty → List Nat) (self : MakeCredentials)
    (maybe_info : Option AuthenticatorInfo) (status : Option ApduErrorStatus)
    (input : List Nat) : Except (Retryable HIDErrorM) MakeCredentialsResult :=
  match status with
  | some ApduErrorStatus.conditionsNotSatisfied => Except.error Retryable.retry
  | some err => Except.error (Retryable.fatal (HIDErrorM.apduStatus err))
  | none =>
    match from_ctap1 parseCert parseKey input (rpHashF self.rp) with
    | Except.error e => Except.error (Retryable.fatal (HIDErrorM.command e))
    | Except.ok output => Except.ok (finalize_result self maybe_info output)

/-- C9: the legacy handler returns the retry signal exactly on the
"conditions not satisfied" status, a fatal ApduStatus error on any
other non-success status, and on success decodes the input with the
legacy parser and reconciles the result with the device capability. -/
theorem c9_handle_response_ctap1
    (parseCert : List Nat → Except String (List Nat × List Nat))
    (parseKey : Curve → List Nat → Except String COSEEC2Key)
    (rpHashF : RelyingParty → List Nat) (self : MakeCredentials)
    (maybe_info : Option AuthenticatorInfo) (input : List Nat) :
    (handle_response_ctap1 parseCert parseKey rpHashF self maybe_info
        (some ApduErrorStatus.conditionsNotSatisfied) input =
      Except.error Retryable.retry) ∧
    (∀ st, st ≠ ApduErrorStatus.conditionsNotSatisfied →
      handle_response_ctap1 parseCert parseKey rpHashF self maybe_info (some st) input =
        Except.error (Retryable.fatal (HIDErrorM.apduStatus st))) ∧
    (∀ output, from_ctap1 parseCert parseKey input (rpHashF self.rp) = Except.ok output →
      handle_response_ctap1 parseCert parseKey rpHashF self maybe_info none input =
        Except.ok (finalize_result self maybe_info output)) ∧
    (∀ e, from_ctap1 parseCert parseKey input (rpHashF self.rp) = Except.error e →
      handle_response_ctap1 parseCert parseKey rpHashF self maybe_info none input =
        Except.error (Retryable.fatal (HIDErrorM.command e))) := by
  refine ⟨rfl, ?_, ?_, ?_⟩
  · intro st hst
    cases st with
    | conditionsNotSatisfied => exact absurd rfl hst
    | other sw1 sw2 => rfl
  · intro output hout
    simp [handle_response_ctap1, hout]
  · intro e he
    simp [handle_response_ctap1, he]

/-- C9 witness: the three status outcomes at concrete inputs — a
non-retryable status, and a success status with the concrete accepted
legacy input of the C8 witness. -/
theorem c9_handle_response_ctap1_witness :
    (ApduErrorStatus.other 0x6a 0x80 ≠ ApduErrorStatus.conditionsNotSatisfied) ∧
    (handle_response_ctap1 (fun l => Except.ok (l, []))
        (fun _ _ => Except.ok ⟨Curve.SECP256R1, [], []⟩) (fun _ => []) sampleReq none
        (some (ApduErrorStatus.other 0x6a 0x80)) legacyInput =
      Except.error (Retryable.fatal
        (HIDErrorM.apduStatus (ApduErrorStatus.other 0x6a 0x80)))) ∧
    (handle_response_ctap1 (fun l => Except.ok (l, []))
        (fun _ _ => Except.ok ⟨Curve.SECP256R1, [], []⟩) (fun _ => []) sampleReq none
        none legacyInput =
      Except.ok (finalize_result sampleReq none
        ((from_ctap1 (fun l => Except.ok (l, []))
          (fun _ _ => Except.ok ⟨Curve.SECP256R1, [], []⟩) legacyInput []).toOption.getD
            sampleRes))) := by
  refine ⟨by decide, ?_, ?_⟩
  · exact (c9_handle_response_ctap1 (fun l => Except.ok (l, []))
      (fun _ _ => Except.ok ⟨Curve.SECP256R1, [], []⟩) (fun _ => []) sampleReq none
      legacyInput).2.1 (ApduErrorStatus.other 0x6a 0x80) (by decide)
  · exact (c9_handle_response_ctap1 (fun l => Except.ok (l, []))
      (fun _ _ => Except.ok ⟨Curve.SECP256R1, [], []⟩) (fun _ => []) sampleReq none
      legacyInput).2.2.1 _ rfl

end MakeCred
